import Mathlib

/-!
Shallow embedding of the Ludo World backend (`main.py` / `schemas.py`).

The document store is modelled as an in-memory list of rooms and a list of
chat messages.  `find_one` returns the first document matching the filter (in
insertion order) and `update_one` patches the first document matching the
filter, which is how MongoDB behaves on an unindexed scan.  External sources
of nondeterminism are passed in as explicit parameters:

* the dice value drawn by `random.randint(1, 6)` is modelled by `randint`
  applied to a caller-supplied seed;
* the room code produced by `_generate_code()` and the ObjectId produced by
  `insert_one` are passed in as strings (`genCode`, `oid`);
* message ObjectIds are modelled by a monotonically increasing counter in the
  store, reflecting that ObjectIds generated by one process increase over
  time (which is what `sort("_id", -1)` relies on in `get_chat`).
-/

namespace Ludo

/-- A player document as embedded in `room.players` (a `dict` in the source).
`_id` is `Option` because `create_room` first inserts the host with
`"_id": None` and only afterwards patches in the generated id. -/
structure Player where
  _id : Option String
  name : String
  color : String
  tokens : List Int
  is_bot : Bool
deriving Repr, DecidableEq

instance : Inhabited Player :=
  ⟨{ _id := none, name := "", color := "", tokens := [], is_bot := false }⟩

/-- A room document (`Room` in `schemas.py` plus the Mongo `_id`). -/
structure Room where
  _id : String
  code : String
  created_by : String
  status : String
  max_players : Nat
  players : List Player
  current_turn : Option String
  last_roll : Option Nat
deriving Repr, DecidableEq

instance : Inhabited Room :=
  ⟨{ _id := "", code := "", created_by := "", status := "waiting",
     max_players := 4, players := [], current_turn := none, last_roll := none }⟩

/-- A chat message document; `mid` models the Mongo ObjectId used for
`sort("_id", -1)`. -/
structure Message where
  mid : Nat
  room_code : String
  player_name : Option String
  text : String
deriving Repr, DecidableEq

/-- The document store: the `room` and `message` collections, plus the
counter producing message ObjectIds. -/
structure Store where
  rooms : List Room
  messages : List Message
  nextMid : Nat
deriving Repr

/-- Request body of `POST /rooms/create`. -/
structure CreateRoomRequest where
  player_name : String
  room_code : Option String
deriving Repr

/-- Request body of `POST /rooms/join`. -/
structure JoinRoomRequest where
  player_name : String
  room_code : String
deriving Repr

/-- Request body of `POST /rooms/{code}/roll`. -/
structure RollDiceRequest where
  room_code : String
  player_id : String
deriving Repr

/-- The error taxonomy: one constructor per `HTTPException` raised by the
endpoints, plus `internalError` for unhandled Python exceptions (HTTP 500). -/
inductive ApiError where
  | roomCodeConflict
  | roomNotFound
  | gameAlreadyStarted
  | roomFull
  | alreadyStarted
  | notEnoughPlayers
  | gameNotStarted
  | notYourTurn
  | internalError
deriving Repr, DecidableEq

/-- `rooms.find_one({"code": code})`: first room (insertion order) with the
given code. -/
def findRoom (s : Store) (code : String) : Option Room :=
  s.rooms.find? (fun r => r.code = code)

/-- `rooms.find_one({"_id": oid})`: first room with the given `_id`. -/
def findById (s : Store) (oid : String) : Option Room :=
  s.rooms.find? (fun r => r._id = oid)

/-- `rooms.update_one({"_id": oid}, patch)`: patch the first matching room. -/
def updateFirst (oid : String) (f : Room → Room) : List Room → List Room
  | [] => []
  | r :: rs => if r._id = oid then f r :: rs else r :: updateFirst oid f rs

/-- Store-level wrapper around `updateFirst`. -/
def updateRoomById (s : Store) (oid : String) (f : Room → Room) : Store :=
  { s with rooms := updateFirst oid f s.rooms }

/-- Model of Python `random.randint a b`: a uniform draw from `[a, b]`,
determined here by an explicit seed. -/
def randint (a b seed : Nat) : Nat :=
  a + seed % (b - a + 1)

/-- `COLORS = ["red", "green", "yellow", "blue"]` (main.py line 78). -/
def COLORS : List String := ["red", "green", "yellow", "blue"]

/-- `_next_color(players)`: first palette color not among the used colors,
falling back to `COLORS[len(players) % 4]` when all are used. -/
def next_color (players : List Player) : String :=
  let used := players.map (·.color)
  match COLORS.find? (fun c => !(used.contains c)) with
  | some c => c
  | none => COLORS.getD (players.length % 4) ""

/-- Python truthiness of `payload.room_code or _generate_code()`:
`None` and the empty string both fall through to the generated code. -/
def chosenCode : Option String → String → String
  | some c, g => if c = "" then g else c
  | none, g => g

/-- `update_one({"_id": oid}, {"$set": {"players.0._id": pid}})`:
set the `_id` of the first embedded player. -/
def setPlayerId0 (pid : String) : List Player → List Player
  | [] => []
  | p :: ps => { p with _id := some pid } :: ps

/-- The `{"$set": {"players.0._id": pid}}` patch of `create_room`. -/
def patchP0Id (pid : String) (r : Room) : Room :=
  { r with players := setPlayerId0 pid r.players }

/-- The `{"$set": {"players": players}}` patch of `join_room`. -/
def patchPlayers (ps : List Player) (r : Room) : Room :=
  { r with players := ps }

/-- The `{"$set": {"status": "playing", "current_turn": pid}}` patch of
`start_game`. -/
def patchStart (pid : Option String) (r : Room) : Room :=
  { r with status := "playing", current_turn := pid }

/-- The `{"$set": {"last_roll": roll}}` patch of `roll_dice`. -/
def patchLastRoll (n : Nat) (r : Room) : Room :=
  { r with last_roll := some n }

/-- The `{"$set": {"current_turn": next_id}}` patch of `roll_dice`. -/
def patchTurn (t : Option String) (r : Room) : Room :=
  { r with current_turn := t }

/-- The host player dict built by `create_room` (before its `_id` is set). -/
def hostPlayer (name : String) : Player :=
  { _id := none, name := name, color := next_color [],
    tokens := [-1, -1, -1, -1], is_bot := false }

/-- The room document inserted by `create_room`. -/
def newRoom (code oid name : String) : Room :=
  { _id := oid, code := code, created_by := "host", status := "waiting",
    max_players := 4, players := [hostPlayer name],
    current_turn := none, last_roll := none }

/-- The player dict appended by `join_room`: id `<room-id>-p<index>` where
`index` is the player count before the append, and the next free color. -/
def newPlayer (room : Room) (name : String) : Player :=
  { _id := some (room._id ++ "-p" ++ toString room.players.length),
    name := name, color := next_color room.players,
    tokens := [-1, -1, -1, -1], is_bot := false }

/-- `ids[(idx + 1) % len(ids)]` as computed by `roll_dice` (main.py line 188). -/
def nextIdOf (room : Room) (idx : Nat) : Option String :=
  let ids := room.players.map (·._id)
  ids.getD ((idx + 1) % ids.length) none

/-- `POST /rooms/create` (main.py lines 88–115).  `genCode` stands for the
value `_generate_code()` would produce, `oid` for the ObjectId that
`insert_one` assigns. -/
def create_room (s : Store) (payload : CreateRoomRequest) (genCode oid : String) :
    Except ApiError Room × Store :=
  let code := chosenCode payload.room_code genCode
  match findRoom s code with
  | some _ => (.error .roomCodeConflict, s)
  | none =>
    let room : Room := newRoom code oid payload.player_name
    let s1 : Store := { s with rooms := s.rooms ++ [room] }
    let s2 := updateRoomById s1 oid (patchP0Id (oid ++ "-p0"))
    match findById s2 oid with
    | some saved => (.ok saved, s2)
    | none => (.error .internalError, s2)

/-- `POST /rooms/join` (main.py lines 117–141). -/
def join_room (s : Store) (payload : JoinRoomRequest) :
    Except ApiError Room × Store :=
  match findRoom s payload.room_code with
  | none => (.error .roomNotFound, s)
  | some room =>
    if room.status ≠ "waiting" then (.error .gameAlreadyStarted, s)
    else if room.players.length ≥ room.max_players then (.error .roomFull, s)
    else
      let newPlayers := room.players ++ [newPlayer room payload.player_name]
      let s1 := updateRoomById s room._id (patchPlayers newPlayers)
      match findById s1 room._id with
      | some updated => (.ok updated, s1)
      | none => (.error .internalError, s1)

/-- `GET /rooms/{code}` (main.py lines 143–150). -/
def get_room (s : Store) (code : String) : Except ApiError Room :=
  match findRoom s code with
  | none => .error .roomNotFound
  | some room => .ok room

/-- `POST /rooms/{code}/start` (main.py lines 152–167). -/
def start_game (s : Store) (code : String) : Except ApiError Room × Store :=
  match findRoom s code with
  | none => (.error .roomNotFound, s)
  | some room =>
    if room.status ≠ "waiting" then (.error .alreadyStarted, s)
    else if room.players.length < 2 then (.error .notEnoughPlayers, s)
    else
      match room.players with
      | [] => (.error .internalError, s)
      | p0 :: _ =>
        let s1 := updateRoomById s room._id (patchStart p0._id)
        match findById s1 room._id with
        | some updated => (.ok updated, s1)
        | none => (.error .internalError, s1)

/-- Result of a successful roll: `{"roll": roll, "room": updated}`. -/
structure RollResult where
  roll : Nat
  room : Room
deriving Repr, DecidableEq

/-- `POST /rooms/{code}/roll` (main.py lines 169–193).  Note the two separate
`update_one` calls: `last_roll` is persisted before the turn index is looked
up, so a `ValueError` from `ids.index` (modelled by the `internalError` after
the first update) would leave `last_roll` already mutated. -/
def roll_dice (s : Store) (code : String) (payload : RollDiceRequest) (seed : Nat) :
    Except ApiError RollResult × Store :=
  match findRoom s code with
  | none => (.error .roomNotFound, s)
  | some room =>
    if room.status ≠ "playing" then (.error .gameNotStarted, s)
    else if room.current_turn ≠ some payload.player_id then (.error .notYourTurn, s)
    else
      let roll := randint 1 6 seed
      let s1 := updateRoomById s room._id (patchLastRoll roll)
      let ids := room.players.map (·._id)
      match ids.findIdx? (fun x => x = some payload.player_id) with
      | none => (.error .internalError, s1)
      | some idx =>
        let next_id := nextIdOf room idx
        let s2 := updateRoomById s1 room._id (patchTurn next_id)
        match findById s2 room._id with
        | some updated => (.ok ⟨roll, updated⟩, s2)
        | none => (.error .internalError, s2)

/-- Request body of `POST /chat`. -/
structure ChatPayload where
  room_code : String
  player_name : Option String
  text : String
deriving Repr

/-- `POST /chat` (main.py lines 201–209): insert one message; the ObjectId is
modelled by the store's counter. -/
def post_chat (s : Store) (msg : ChatPayload) : String × Store :=
  let m : Message :=
    { mid := s.nextMid, room_code := msg.room_code,
      player_name := msg.player_name, text := msg.text }
  (toString s.nextMid, { s with messages := s.messages ++ [m], nextMid := s.nextMid + 1 })

/-- Insert a message into a list kept sorted by descending ObjectId
(stable: an existing message with an equal id stays in front). -/
def insertDesc (m : Message) : List Message → List Message
  | [] => [m]
  | x :: xs => if x.mid ≥ m.mid then x :: insertDesc m xs else m :: x :: xs

/-- Model of `.sort("_id", -1)`: sort messages by descending ObjectId. -/
def sortDesc : List Message → List Message
  | [] => []
  | x :: xs => insertDesc x (sortDesc xs)

/-- `GET /chat/{room_code}` (main.py lines 211–217):
`list(reversed(find({"room_code": rc}).sort("_id", -1).limit(50)))`. -/
def get_chat (s : Store) (room_code : String) : List Message :=
  ((sortDesc (s.messages.filter (fun m => m.room_code = room_code))).take 50).reverse

/-- All messages of a room in chronological (insertion) order; used to state
specifications about `get_chat`. -/
def msgsFor (s : Store) (room_code : String) : List Message :=
  s.messages.filter (fun m => m.room_code = room_code)

/-- MongoDB's primary-key guarantee: room `_id`s are pairwise distinct. -/
def UniqueIds (s : Store) : Prop :=
  (s.rooms.map (·._id)).Nodup

instance (s : Store) : Decidable (UniqueIds s) := by
  unfold UniqueIds; infer_instance

/-- Position of a status in the lifecycle waiting → playing → finished. -/
def statusRank : String → Nat
  | "playing" => 1
  | "finished" => 2
  | _ => 0

/-- Status of the room stored at position `i` (a scratch value past the end). -/
def statusAt (s : Store) (i : Nat) : String :=
  (s.rooms.getD i default).status

/-- `k` rounds of "the player whose turn it is rolls the dice" against the room
with the given code; `seeds k⁻ᵗʰ` draws the dice values.  `none` as soon as a
roll fails, so `roll_round … = some s'` means every roll succeeded and was made
by the player holding the turn. -/
def roll_round (code : String) (seeds : Nat → Nat) : Nat → Store → Option Store
  | 0, s => some s
  | k + 1, s =>
    match findRoom s code with
    | none => none
    | some room =>
      match room.current_turn with
      | none => none
      | some pid =>
        match roll_dice s code ⟨code, pid⟩ (seeds k) with
        | (.ok _, s1) => roll_round code seeds k s1
        | (.error _, _) => none

/-- Sequential `POST /rooms/join` calls with the given player names. -/
def joinSeq (code : String) (names : List String) (s : Store) : Store :=
  names.foldl (fun st n => (join_room st ⟨n, code⟩).2) s

/-- Invariant carried through sequential joins: room ids are unique, and the
room with the given code (if any) has pairwise-distinct player colors, at
most 4 players, and capacity 4. -/
def RoomColorsInv (code : String) (s : Store) : Prop :=
  UniqueIds s ∧
  ∀ room, findRoom s code = some room →
    (room.players.map (·.color)).Nodup ∧ room.players.length ≤ 4 ∧
    room.max_players = 4

instance : Inhabited RollResult := ⟨⟨0, default⟩⟩

/-- Empty store, as at service start-up. -/
def demoStore0 : Store := ⟨[], [], 0⟩

/-- Store after `create_room` by "alice" (generated code `ABC123`, ObjectId
`oid1`). -/
def demoStore1 : Store := (create_room demoStore0 ⟨"alice", none⟩ "ABC123" "oid1").2

/-- Store after "bob" joins. -/
def demoStore2 : Store := (join_room demoStore1 ⟨"bob", "ABC123"⟩).2

/-- Store after the game is started. -/
def demoStore3 : Store := (start_game demoStore2 "ABC123").2

/-- Result of a first roll by the player holding the turn. -/
def demoRollOut : Except ApiError RollResult × Store :=
  roll_dice demoStore3 "ABC123" ⟨"ABC123", "oid1-p0"⟩ 7

/-- The `RollResult` inside `demoRollOut`. -/
def demoRollRes : RollResult :=
  match demoRollOut.1 with
  | .ok r => r
  | .error _ => default

/-- The stored room of `demoStore1`. -/
def demoRoom1 : Room := (findRoom demoStore1 "ABC123").getD default

/-- The stored room of `demoStore2`. -/
def demoRoom2 : Room := (findRoom demoStore2 "ABC123").getD default

/-- The stored room of `demoStore3`. -/
def demoRoom3 : Room := (findRoom demoStore3 "ABC123").getD default

/-- Store after "bob" and "carol" join the fresh demo room in sequence. -/
def demoStoreJ : Store := joinSeq "ABC123" ["bob", "carol"] demoStore1

/-- The stored room of `demoStoreJ`. -/
def demoRoomJ : Room := (findRoom demoStoreJ "ABC123").getD default

/-- A fixed seed sequence for demo dice rolls. -/
def demoSeeds : Nat → Nat := fun _ => 5

/-- A full round of rolls (one per player) in the demo game. -/
def demoRoundOut : Option Store := roll_round "ABC123" demoSeeds 2 demoStore3

/-- The store after the full demo round. -/
def demoRoundStore : Store := demoRoundOut.getD demoStore0

/-- The stored room after the full demo round. -/
def demoRoundRoom : Room := (findRoom demoRoundStore "ABC123").getD default

/-- Store after two chat messages are posted to the demo room. -/
def demoChatStore : Store :=
  (post_chat (post_chat demoStore0 ⟨"ABC123", some "alice", "hi"⟩).2
    ⟨"ABC123", none, "yo"⟩).2

/-! ### Helper lemmas about the store primitives -/

theorem length_updateFirst (oid : String) (f : Room → Room) (l : List Room) :
    (updateFirst oid f l).length = l.length := by
  induction l with
  | nil => rfl
  | cons r rs ih => simp only [updateFirst]; split <;> simp [ih]

theorem getD_updateFirst (oid : String) (f : Room → Room) (l : List Room)
    (i : Nat) (d : Room) :
    (updateFirst oid f l).getD i d = l.getD i d ∨
      (updateFirst oid f l).getD i d = f (l.getD i d) := by
  induction l generalizing i with
  | nil => left; rfl
  | cons r rs ih =>
    simp only [updateFirst]
    split
    · cases i with
      | zero => right; rfl
      | succ j => left; rfl
    · cases i with
      | zero => left; rfl
      | succ j => simpa using ih j

theorem map_updateFirst_of_preserve {α : Type} (g : Room → α) (oid : String)
    (f : Room → Room) (hg : ∀ r, g (f r) = g r) (l : List Room) :
    (updateFirst oid f l).map g = l.map g := by
  induction l with
  | nil => rfl
  | cons r rs ih => simp only [updateFirst]; split <;> simp [ih, hg]

theorem find?_id_updateFirst (oid : String) (f : Room → Room)
    (hf : ∀ r, (f r)._id = r._id) (l : List Room) :
    (updateFirst oid f l).find? (fun r => r._id = oid) =
      (l.find? (fun r => r._id = oid)).map f := by
  induction l with
  | nil => rfl
  | cons r rs ih =>
    simp only [updateFirst]
    by_cases h : r._id = oid
    · simp [List.find?, h, hf]
    · simp [List.find?, h, ih]

theorem find?_id_of_mem_nodup (l : List Room) (room : Room)
    (hnd : (l.map (·._id)).Nodup) (hmem : room ∈ l) :
    l.find? (fun r => r._id = room._id) = some room := by
  induction l with
  | nil => cases hmem
  | cons r rs ih =>
    simp only [List.map_cons, List.nodup_cons] at hnd
    rcases List.mem_cons.mp hmem with h | h
    · subst h; simp [List.find?]
    · have hne : ¬ r._id = room._id := fun he =>
        hnd.1 (he ▸ List.mem_map_of_mem (·._id) h)
      simp only [List.find?, decide_eq_false hne]
      exact ih hnd.2 h

theorem find?_code_updateFirst (l : List Room) (room : Room) (code : String)
    (f : Room → Room)
    (hnd : (l.map (·._id)).Nodup)
    (hfind : l.find? (fun r => r.code = code) = some room)
    (hfc : (f room).code = room.code) :
    (updateFirst room._id f l).find? (fun r => r.code = code) = some (f room) := by
  induction l with
  | nil => simp [List.find?] at hfind
  | cons r rs ih =>
    simp only [List.map_cons, List.nodup_cons] at hnd
    by_cases h : r.code = code
    · have : r = room := by simpa [List.find?, h] using hfind
      subst this
      simp only [updateFirst, if_pos rfl]
      simp [List.find?, hfc, h]
    · have hfind' : rs.find? (fun r => r.code = code) = some room := by
        simpa [List.find?, h] using hfind
      have hmem : room ∈ rs := List.mem_of_find?_eq_some hfind'
      have hne : ¬ r._id = room._id := fun he =>
        hnd.1 (he ▸ List.mem_map_of_mem (·._id) hmem)
      simp only [updateFirst, if_neg hne]
      simp only [List.find?, decide_eq_false h]
      exact ih hnd.2 hfind'

@[simp] theorem patchP0Id_id (pid : String) (r : Room) :
    (patchP0Id pid r)._id = r._id := rfl

@[simp] theorem patchP0Id_code (pid : String) (r : Room) :
    (patchP0Id pid r).code = r.code := rfl

@[simp] theorem patchP0Id_status (pid : String) (r : Room) :
    (patchP0Id pid r).status = r.status := rfl

@[simp] theorem patchPlayers_id (ps : List Player) (r : Room) :
    (patchPlayers ps r)._id = r._id := rfl

@[simp] theorem patchPlayers_code (ps : List Player) (r : Room) :
    (patchPlayers ps r).code = r.code := rfl

@[simp] theorem patchPlayers_status (ps : List Player) (r : Room) :
    (patchPlayers ps r).status = r.status := rfl

@[simp] theorem patchPlayers_players (ps : List Player) (r : Room) :
    (patchPlayers ps r).players = ps := rfl

@[simp] theorem patchPlayers_max (ps : List Player) (r : Room) :
    (patchPlayers ps r).max_players = r.max_players := rfl

@[simp] theorem patchStart_id (pid : Option String) (r : Room) :
    (patchStart pid r)._id = r._id := rfl

@[simp] theorem patchStart_code (pid : Option String) (r : Room) :
    (patchStart pid r).code = r.code := rfl

@[simp] theorem patchStart_status (pid : Option String) (r : Room) :
    (patchStart pid r).status = "playing" := rfl

@[simp] theorem patchStart_players (pid : Option String) (r : Room) :
    (patchStart pid r).players = r.players := rfl

@[simp] theorem patchStart_turn (pid : Option String) (r : Room) :
    (patchStart pid r).current_turn = pid := rfl

@[simp] theorem patchLastRoll_id (n : Nat) (r : Room) :
    (patchLastRoll n r)._id = r._id := rfl

@[simp] theorem patchLastRoll_code (n : Nat) (r : Room) :
    (patchLastRoll n r).code = r.code := rfl

@[simp] theorem patchLastRoll_status (n : Nat) (r : Room) :
    (patchLastRoll n r).status = r.status := rfl

@[simp] theorem patchLastRoll_players (n : Nat) (r : Room) :
    (patchLastRoll n r).players = r.players := rfl

@[simp] theorem patchLastRoll_turn (n : Nat) (r : Room) :
    (patchLastRoll n r).current_turn = r.current_turn := rfl

@[simp] theorem patchLastRoll_last (n : Nat) (r : Room) :
    (patchLastRoll n r).last_roll = some n := rfl

@[simp] theorem patchTurn_id (t : Option String) (r : Room) :
    (patchTurn t r)._id = r._id := rfl

@[simp] theorem patchTurn_code (t : Option String) (r : Room) :
    (patchTurn t r).code = r.code := rfl

@[simp] theorem patchTurn_status (t : Option String) (r : Room) :
    (patchTurn t r).status = r.status := rfl

@[simp] theorem patchTurn_players (t : Option String) (r : Room) :
    (patchTurn t r).players = r.players := rfl

@[simp] theorem patchTurn_turn (t : Option String) (r : Room) :
    (patchTurn t r).current_turn = t := rfl

@[simp] theorem patchTurn_last (t : Option String) (r : Room) :
    (patchTurn t r).last_roll = r.last_roll := rfl

theorem findRoom_mem {s : Store} {code : String} {room : Room}
    (h : findRoom s code = some room) : room ∈ s.rooms :=
  List.mem_of_find?_eq_some h

theorem findRoom_code {s : Store} {code : String} {room : Room}
    (h : findRoom s code = some room) : room.code = code := by
  have := List.find?_some h
  simpa using this

theorem findById_id {s : Store} {oid : String} {room : Room}
    (h : findById s oid = some room) : room._id = oid := by
  have := List.find?_some h
  simpa using this

theorem findById_updateRoomById (s : Store) (oid : String) (f : Room → Room)
    (hf : ∀ r, (f r)._id = r._id) :
    findById (updateRoomById s oid f) oid = (findById s oid).map f :=
  find?_id_updateFirst oid f hf s.rooms

theorem findById_of_findRoom {s : Store} {code : String} {room : Room}
    (hU : UniqueIds s) (h : findRoom s code = some room) :
    findById s room._id = some room :=
  find?_id_of_mem_nodup s.rooms room hU (findRoom_mem h)

theorem findRoom_updateRoomById {s : Store} {code : String} {room : Room}
    (f : Room → Room) (hU : UniqueIds s) (h : findRoom s code = some room)
    (hfc : (f room).code = room.code) :
    findRoom (updateRoomById s room._id f) code = some (f room) :=
  find?_code_updateFirst s.rooms room code f hU h hfc

theorem uniqueIds_updateRoomById {s : Store} (oid : String) (f : Room → Room)
    (hf : ∀ r, (f r)._id = r._id) (hU : UniqueIds s) :
    UniqueIds (updateRoomById s oid f) := by
  unfold UniqueIds updateRoomById at *
  rwa [map_updateFirst_of_preserve (·._id) oid f hf]

theorem findById_update_patchLastRoll (s : Store) (oid : String) (n : Nat) :
    findById (updateRoomById s oid (patchLastRoll n)) oid =
      (findById s oid).map (patchLastRoll n) :=
  findById_updateRoomById s oid _ (fun _ => rfl)

theorem findById_update_patchTurn (s : Store) (oid : String) (t : Option String) :
    findById (updateRoomById s oid (patchTurn t)) oid =
      (findById s oid).map (patchTurn t) :=
  findById_updateRoomById s oid _ (fun _ => rfl)

theorem findById_update_patchStart (s : Store) (oid : String) (t : Option String) :
    findById (updateRoomById s oid (patchStart t)) oid =
      (findById s oid).map (patchStart t) :=
  findById_updateRoomById s oid _ (fun _ => rfl)

theorem findById_update_patchPlayers (s : Store) (oid : String) (ps : List Player) :
    findById (updateRoomById s oid (patchPlayers ps)) oid =
      (findById s oid).map (patchPlayers ps) :=
  findById_updateRoomById s oid _ (fun _ => rfl)

theorem findById_update_patchP0Id (s : Store) (oid pid : String) :
    findById (updateRoomById s oid (patchP0Id pid)) oid =
      (findById s oid).map (patchP0Id pid) :=
  findById_updateRoomById s oid _ (fun _ => rfl)

theorem updateFirst_append_fresh (oid : String) (f : Room → Room)
    (l : List Room) (r : Room)
    (hfresh : oid ∉ l.map (·._id)) (hr : r._id = oid) :
    updateFirst oid f (l ++ [r]) = l ++ [f r] := by
  induction l with
  | nil => simp [updateFirst, hr]
  | cons a as ih =>
    simp only [List.map_cons, List.mem_cons] at hfresh
    push_neg at hfresh
    have hne : ¬ a._id = oid := fun he => hfresh.1 he.symm
    simp [updateFirst, hne, ih hfresh.2]

theorem find?_id_append_fresh (oid : String) (l : List Room) (r : Room)
    (hfresh : oid ∉ l.map (·._id)) (hr : r._id = oid) :
    (l ++ [r]).find? (fun x => x._id = oid) = some r := by
  induction l with
  | nil => simp [List.find?, hr]
  | cons a as ih =>
    simp only [List.map_cons, List.mem_cons] at hfresh
    push_neg at hfresh
    have hne : ¬ a._id = oid := fun he => hfresh.1 he.symm
    simp [List.find?, decide_eq_false hne, ih hfresh.2]

/-! ### Shapes of each endpoint's outcomes -/

theorem join_room_eq_notFound (s : Store) (payload : JoinRoomRequest)
    (h : findRoom s payload.room_code = none) :
    join_room s payload = (.error .roomNotFound, s) := by
  simp only [join_room, h]

theorem join_room_eq_started (s : Store) (payload : JoinRoomRequest) (room : Room)
    (h : findRoom s payload.room_code = some room) (hs : room.status ≠ "waiting") :
    join_room s payload = (.error .gameAlreadyStarted, s) := by
  simp only [join_room, h]
  rw [if_pos hs]

theorem join_room_eq_full (s : Store) (payload : JoinRoomRequest) (room : Room)
    (h : findRoom s payload.room_code = some room) (hs : room.status = "waiting")
    (hf : room.players.length ≥ room.max_players) :
    join_room s payload = (.error .roomFull, s) := by
  simp only [join_room, h]
  rw [if_neg (by simp [hs]), if_pos hf]

theorem join_room_eq_ok (s : Store) (payload : JoinRoomRequest) (room : Room)
    (hU : UniqueIds s)
    (h : findRoom s payload.room_code = some room) (hs : room.status = "waiting")
    (hlt : room.players.length < room.max_players) :
    join_room s payload =
      (.ok (patchPlayers (room.players ++ [newPlayer room payload.player_name]) room),
        updateRoomById s room._id
          (patchPlayers (room.players ++ [newPlayer room payload.player_name]))) := by
  simp only [join_room, h]
  rw [if_neg (by simp [hs]), if_neg (by omega)]
  have hbyid : findById (updateRoomById s room._id
      (patchPlayers (room.players ++ [newPlayer room payload.player_name]))) room._id =
      some (patchPlayers (room.players ++ [newPlayer room payload.player_name]) room) := by
    rw [findById_update_patchPlayers, findById_of_findRoom hU h]; rfl
  simp only [hbyid]

theorem start_game_eq_notFound (s : Store) (code : String)
    (h : findRoom s code = none) :
    start_game s code = (.error .roomNotFound, s) := by
  simp only [start_game, h]

theorem start_game_eq_started (s : Store) (code : String) (room : Room)
    (h : findRoom s code = some room) (hs : room.status ≠ "waiting") :
    start_game s code = (.error .alreadyStarted, s) := by
  simp only [start_game, h]
  rw [if_pos hs]

theorem start_game_eq_few (s : Store) (code : String) (room : Room)
    (h : findRoom s code = some room) (hs : room.status = "waiting")
    (hlt : room.players.length < 2) :
    start_game s code = (.error .notEnoughPlayers, s) := by
  simp only [start_game, h]
  rw [if_neg (by simp [hs]), if_pos hlt]

theorem start_game_eq_ok (s : Store) (code : String) (room : Room)
    (hU : UniqueIds s)
    (h : findRoom s code = some room) (hs : room.status = "waiting")
    (hge : 2 ≤ room.players.length) :
    start_game s code =
      (.ok (patchStart (room.players.headD default)._id room),
        updateRoomById s room._id
          (patchStart (room.players.headD default)._id)) := by
  simp only [start_game, h]
  rw [if_neg (by simp [hs]), if_neg (by omega)]
  rcases hp : room.players with _ | ⟨p0, rest⟩
  · rw [hp] at hge; simp at hge
  · have hbyid : findById (updateRoomById s room._id (patchStart p0._id)) room._id =
        some (patchStart p0._id room) := by
      rw [findById_update_patchStart, findById_of_findRoom hU h]; rfl
    simp only [hbyid, hp, List.headD_cons]

theorem roll_dice_eq_notFound (s : Store) (code : String)
    (payload : RollDiceRequest) (seed : Nat)
    (h : findRoom s code = none) :
    roll_dice s code payload seed = (.error .roomNotFound, s) := by
  simp only [roll_dice, h]

theorem roll_dice_eq_notStarted (s : Store) (code : String)
    (payload : RollDiceRequest) (seed : Nat) (room : Room)
    (h : findRoom s code = some room) (hs : room.status ≠ "playing") :
    roll_dice s code payload seed = (.error .gameNotStarted, s) := by
  simp only [roll_dice, h]
  rw [if_pos hs]

theorem roll_dice_eq_notYourTurn (s : Store) (code : String)
    (payload : RollDiceRequest) (seed : Nat) (room : Room)
    (h : findRoom s code = some room) (hs : room.status = "playing")
    (ht : room.current_turn ≠ some payload.player_id) :
    roll_dice s code payload seed = (.error .notYourTurn, s) := by
  simp only [roll_dice, h]
  rw [if_neg (by simp [hs]), if_pos ht]

theorem roll_dice_eq_ok (s : Store) (code : String)
    (payload : RollDiceRequest) (seed : Nat) (room : Room) (idx : Nat)
    (hU : UniqueIds s)
    (h : findRoom s code = some room) (hs : room.status = "playing")
    (ht : room.current_turn = some payload.player_id)
    (hidx : (room.players.map (·._id)).findIdx?
      (fun x => x = some payload.player_id) = some idx) :
    roll_dice s code payload seed =
      (.ok ⟨randint 1 6 seed,
            patchTurn (nextIdOf room idx) (patchLastRoll (randint 1 6 seed) room)⟩,
        updateRoomById (updateRoomById s room._id (patchLastRoll (randint 1 6 seed)))
          room._id (patchTurn (nextIdOf room idx))) := by
  simp only [roll_dice, h]
  rw [if_neg (by simp [hs]), if_neg (by simp [ht]), hidx]
  have hbyid : findById
      (updateRoomById (updateRoomById s room._id (patchLastRoll (randint 1 6 seed)))
        room._id (patchTurn (nextIdOf room idx))) room._id =
      some (patchTurn (nextIdOf room idx) (patchLastRoll (randint 1 6 seed) room)) := by
    rw [findById_update_patchTurn, findById_update_patchLastRoll,
        findById_of_findRoom hU h]; rfl
  simp only [hbyid]

theorem roll_dice_eq_idxNone (s : Store) (code : String)
    (payload : RollDiceRequest) (seed : Nat) (room : Room)
    (h : findRoom s code = some room) (hs : room.status = "playing")
    (ht : room.current_turn = some payload.player_id)
    (hidx : (room.players.map (·._id)).findIdx?
      (fun x => x = some payload.player_id) = none) :
    roll_dice s code payload seed =
      (.error .internalError,
        updateRoomById s room._id (patchLastRoll (randint 1 6 seed))) := by
  simp only [roll_dice, h]
  rw [if_neg (by simp [hs]), if_neg (by simp [ht]), hidx]

theorem create_room_eq_conflict (s : Store) (payload : CreateRoomRequest)
    (genCode oid : String) (room : Room)
    (h : findRoom s (chosenCode payload.room_code genCode) = some room) :
    create_room s payload genCode oid = (.error .roomCodeConflict, s) := by
  simp only [create_room, h]

theorem create_room_eq_ok (s : Store) (payload : CreateRoomRequest)
    (genCode oid : String)
    (hnone : findRoom s (chosenCode payload.room_code genCode) = none)
    (hfresh : oid ∉ s.rooms.map (·._id)) :
    create_room s payload genCode oid =
      (.ok (patchP0Id (oid ++ "-p0")
              (newRoom (chosenCode payload.room_code genCode) oid payload.player_name)),
        { s with rooms := s.rooms ++
            [patchP0Id (oid ++ "-p0")
              (newRoom (chosenCode payload.room_code genCode) oid payload.player_name)] }) := by
  simp only [create_room, hnone]
  have h1 : updateFirst oid (patchP0Id (oid ++ "-p0"))
      (s.rooms ++ [newRoom (chosenCode payload.room_code genCode) oid payload.player_name]) =
      s.rooms ++ [patchP0Id (oid ++ "-p0")
        (newRoom (chosenCode payload.room_code genCode) oid payload.player_name)] :=
    updateFirst_append_fresh oid _ _ _ hfresh rfl
  have h2 : (s.rooms ++ [patchP0Id (oid ++ "-p0")
      (newRoom (chosenCode payload.room_code genCode) oid payload.player_name)]).find?
        (fun x => x._id = oid) =
      some (patchP0Id (oid ++ "-p0")
        (newRoom (chosenCode payload.room_code genCode) oid payload.player_name)) :=
    find?_id_append_fresh oid _ _ hfresh rfl
  simp only [updateRoomById, h1]
  simp only [findById, h2]

theorem getD_updateFirst_id (oid : String) (f : Room → Room) (l : List Room)
    (i : Nat) (d : Room) :
    (updateFirst oid f l).getD i d = l.getD i d ∨
      ((l.getD i d)._id = oid ∧
        (updateFirst oid f l).getD i d = f (l.getD i d)) := by
  induction l generalizing i with
  | nil => left; rfl
  | cons r rs ih =>
    simp only [updateFirst]
    split
    next hcond =>
      cases i with
      | zero => right; exact ⟨by simpa using hcond, by simp⟩
      | succ j => left; rfl
    next hcond =>
      cases i with
      | zero => left; rfl
      | succ j => simpa using ih j

theorem statusAt_updateRoomById_preserve (s : Store) (oid : String)
    (f : Room → Room) (hf : ∀ r, (f r).status = r.status) (i : Nat) :
    statusAt (updateRoomById s oid f) i = statusAt s i := by
  unfold statusAt updateRoomById
  rcases getD_updateFirst oid f s.rooms i default with h | h
  · rw [h]
  · rw [h, hf]

theorem getD_mem_of_lt (l : List Room) (i : Nat) (d : Room)
    (h : i < l.length) : l.getD i d ∈ l := by
  rw [List.getD_eq_getElem l d h]
  exact List.getElem_mem h

theorem statusAt_patchStart (s : Store) (code : String) (room : Room)
    (hU : UniqueIds s) (hfr : findRoom s code = some room)
    (hw : room.status = "waiting") (t : Option String) (i : Nat)
    (hi : i < s.rooms.length) :
    statusAt (updateRoomById s room._id (patchStart t)) i = statusAt s i ∨
      (statusAt s i = "waiting" ∧
        statusAt (updateRoomById s room._id (patchStart t)) i = "playing") := by
  unfold statusAt updateRoomById
  rcases getD_updateFirst_id room._id (patchStart t) s.rooms i default with h | ⟨hid, h⟩
  · left; rw [h]
  · right
    have hmem : s.rooms.getD i default ∈ s.rooms := getD_mem_of_lt s.rooms i default hi
    have heq : s.rooms.getD i default = room :=
      List.inj_on_of_nodup_map hU hmem (findRoom_mem hfr) hid
    rw [h, heq]
    exact ⟨hw, rfl⟩

theorem next_color_fallback (players : List Player)
    (hall : ∀ c ∈ COLORS, c ∈ players.map (·.color)) :
    next_color players = COLORS.getD (players.length % 4) "" := by
  have hnone : COLORS.find? (fun c => !((players.map (·.color)).contains c)) = none := by
    rw [List.find?_eq_none]
    intro x hx
    simp [List.contains, List.elem_eq_mem, hall x hx]
  simp only [next_color]
  rw [hnone]

theorem next_color_not_mem (players : List Player) (h : players.length < 4) :
    next_color players ∉ players.map (·.color) := by
  by_cases hall : ∀ c ∈ COLORS, c ∈ players.map (·.color)
  · have hsub : COLORS.Subperm (players.map (·.color)) :=
      List.subperm_of_subset (by decide) hall
    have hle := hsub.length_le
    simp [COLORS, List.length_map] at hle
    omega
  · push_neg at hall
    obtain ⟨c, hc, hcn⟩ := hall
    rcases hf : COLORS.find? (fun c => !((players.map (·.color)).contains c)) with _ | c'
    · rw [List.find?_eq_none] at hf
      exact absurd (by simp [List.contains, List.elem_eq_mem, hcn]) (hf c hc)
    · have hp := List.find?_some hf
      simp only [next_color]
      rw [hf]
      simpa [List.contains, List.elem_eq_mem] using hp

theorem next_color_lowest (players : List Player) (i : Nat)
    (hi : i < COLORS.length)
    (hprev : ∀ j, j < i → COLORS.getD j "" ∈ players.map (·.color))
    (hcur : COLORS.getD i "" ∉ players.map (·.color)) :
    next_color players = COLORS.getD i "" := by
  simp only [COLORS, List.length_cons, List.length_nil] at hi
  interval_cases i
  · rw [show COLORS.getD 0 "" = "red" from rfl] at hcur ⊢
    simp only [next_color, COLORS]
    simp [List.find?, List.contains, List.elem_eq_mem, hcur]
  · have h0 : "red" ∈ players.map (·.color) := by
      simpa [COLORS] using hprev 0 (by omega)
    rw [show COLORS.getD 1 "" = "green" from rfl] at hcur ⊢
    simp only [next_color, COLORS]
    simp [List.find?, List.contains, List.elem_eq_mem, h0, hcur]
  · have h0 : "red" ∈ players.map (·.color) := by
      simpa [COLORS] using hprev 0 (by omega)
    have h1 : "green" ∈ players.map (·.color) := by
      simpa [COLORS] using hprev 1 (by omega)
    rw [show COLORS.getD 2 "" = "yellow" from rfl] at hcur ⊢
    simp only [next_color, COLORS]
    simp [List.find?, List.contains, List.elem_eq_mem, h0, h1, hcur]
  · have h0 : "red" ∈ players.map (·.color) := by
      simpa [COLORS] using hprev 0 (by omega)
    have h1 : "green" ∈ players.map (·.color) := by
      simpa [COLORS] using hprev 1 (by omega)
    have h2 : "yellow" ∈ players.map (·.color) := by
      simpa [COLORS] using hprev 2 (by omega)
    rw [show COLORS.getD 3 "" = "blue" from rfl] at hcur ⊢
    simp only [next_color, COLORS]
    simp [List.find?, List.contains, List.elem_eq_mem, h0, h1, h2, hcur]

theorem join_preserves_colorsInv (code n : String) (s : Store)
    (h : RoomColorsInv code s) :
    RoomColorsInv code (join_room s ⟨n, code⟩).2 := by
  obtain ⟨hU, hrooms⟩ := h
  rcases hfr : findRoom s code with _ | room
  · rw [join_room_eq_notFound s ⟨n, code⟩ hfr]
    exact ⟨hU, hrooms⟩
  · by_cases hs : room.status = "waiting"
    · by_cases hlen : room.players.length ≥ room.max_players
      · rw [join_room_eq_full s ⟨n, code⟩ room hfr hs hlen]
        exact ⟨hU, hrooms⟩
      · rw [join_room_eq_ok s ⟨n, code⟩ room hU hfr hs (by omega)]
        obtain ⟨hnd, hle, hmax⟩ := hrooms room hfr
        have hlt4 : room.players.length < 4 := by omega
        constructor
        · exact uniqueIds_updateRoomById room._id _ (fun r => rfl) hU
        · intro room' hroom'
          have hfr' : findRoom (updateRoomById s room._id
              (patchPlayers (room.players ++ [newPlayer room n]))) code =
              some (patchPlayers (room.players ++ [newPlayer room n]) room) :=
            findRoom_updateRoomById _ hU hfr rfl
          rw [hfr', Option.some.injEq] at hroom'
          subst hroom'
          refine ⟨?_, by simp; omega, by simpa using hmax⟩
          simp only [patchPlayers_players, List.map_append, List.map_cons,
            List.map_nil]
          rw [List.nodup_append]
          refine ⟨hnd, List.nodup_singleton _, ?_⟩
          intro a ha hb
          simp only [List.mem_singleton] at hb
          subst hb
          exact next_color_not_mem room.players hlt4 ha
    · rw [join_room_eq_started s ⟨n, code⟩ room hfr hs]
      exact ⟨hU, hrooms⟩

theorem joinSeq_preserves_colorsInv (code : String) (names : List String) :
    ∀ s, RoomColorsInv code s → RoomColorsInv code (joinSeq code names s) := by
  induction names with
  | nil => intro s h; exact h
  | cons n ns ih =>
    intro s h
    exact ih _ (join_preserves_colorsInv code n s h)

theorem create_room_colorsInv (s : Store) (cp : CreateRoomRequest)
    (genCode oid : String)
    (hU : UniqueIds s) (hfresh : oid ∉ s.rooms.map (·._id))
    (hnone : findRoom s (chosenCode cp.room_code genCode) = none) :
    RoomColorsInv (chosenCode cp.room_code genCode)
      (create_room s cp genCode oid).2 := by
  rw [create_room_eq_ok s cp genCode oid hnone hfresh]
  constructor
  · show (((s.rooms ++ [patchP0Id (oid ++ "-p0")
      (newRoom (chosenCode cp.room_code genCode) oid cp.player_name)]).map (·._id))).Nodup
    rw [List.map_append, List.nodup_append]
    refine ⟨hU, by simp, ?_⟩
    intro a ha hb
    simp only [List.map_cons, List.map_nil, List.mem_singleton] at hb
    subst hb
    exact hfresh ha
  · intro room' hroom'
    have hroom2 : (s.rooms ++ [patchP0Id (oid ++ "-p0")
        (newRoom (chosenCode cp.room_code genCode) oid cp.player_name)]).find?
          (fun r => r.code = chosenCode cp.room_code genCode) = some room' := hroom'
    have hnone' : s.rooms.find?
        (fun r => r.code = chosenCode cp.room_code genCode) = none := hnone
    rw [List.find?_append, hnone'] at hroom2
    simp only [Option.none_or] at hroom2
    have hpatch : (patchP0Id (oid ++ "-p0")
        (newRoom (chosenCode cp.room_code genCode) oid cp.player_name)).code =
        chosenCode cp.room_code genCode := rfl
    simp only [List.find?, hpatch, decide_True, Option.some.injEq] at hroom2
    subst hroom2
    refine ⟨?_, ?_, rfl⟩
    · simp [patchP0Id, newRoom, setPlayerId0, hostPlayer]
    · simp [patchP0Id, newRoom, setPlayerId0, hostPlayer]

theorem findIdx?_get_of_nodup {α : Type} [DecidableEq α] (l : List α) :
    ∀ (i : Nat) (h : i < l.length), l.Nodup →
    l.findIdx? (fun x => x = l.get ⟨i, h⟩) = some i := by
  induction l with
  | nil => intro i h; simp at h
  | cons x xs ih =>
    intro i h hnd
    rw [List.nodup_cons] at hnd
    cases i with
    | zero =>
      rw [List.findIdx?_cons]
      simp
    | succ j =>
      have hj : j < xs.length := by simpa using h
      have hget : (x :: xs).get ⟨j + 1, h⟩ = xs.get ⟨j, hj⟩ := rfl
      have hxne : ¬ x = xs.get ⟨j, hj⟩ := by
        intro he
        exact hnd.1 (he ▸ List.get_mem xs j hj)
      rw [List.findIdx?_cons, hget, if_neg (by simpa using hxne),
        List.findIdx?_succ, ih j hj hnd.2]
      rfl

theorem roll_step (s : Store) (code rc pid : String) (seed : Nat)
    (room : Room) (i : Nat)
    (hU : UniqueIds s) (hfr : findRoom s code = some room)
    (hs : room.status = "playing")
    (hnd : (room.players.map (·._id)).Nodup)
    (hi : i < (room.players.map (·._id)).length)
    (hget : (room.players.map (·._id)).getD i none = some pid)
    (hcur : room.current_turn = some pid) :
    roll_dice s code ⟨rc, pid⟩ seed =
      (.ok ⟨randint 1 6 seed,
        patchTurn (nextIdOf room i) (patchLastRoll (randint 1 6 seed) room)⟩,
       updateRoomById (updateRoomById s room._id (patchLastRoll (randint 1 6 seed)))
         room._id (patchTurn (nextIdOf room i))) := by
  have hget' : (room.players.map (·._id)).get ⟨i, hi⟩ = some pid := by
    rw [← hget, List.getD_eq_getElem _ _ hi]
    simp
  have hidx : (room.players.map (·._id)).findIdx?
      (fun x => x = some pid) = some i := by
    have := findIdx?_get_of_nodup (room.players.map (·._id)) i hi hnd
    rw [hget'] at this
    exact this
  exact roll_dice_eq_ok s code ⟨rc, pid⟩ seed room i hU hfr hs hcur hidx

theorem nextIdOf_eq_getD (room : Room) (idx : Nat) :
    nextIdOf room idx = (room.players.map (·._id)).getD
      ((idx + 1) % (room.players.map (·._id)).length) none := rfl

theorem roll_round_rotation (code : String) (seeds : Nat → Nat) :
    ∀ (k : Nat) (s : Store) (room : Room) (i : Nat),
      UniqueIds s → findRoom s code = some room → room.status = "playing" →
      (room.players.map (·._id)).Nodup →
      (∀ x ∈ room.players.map (·._id), x ≠ none) →
      i < (room.players.map (·._id)).length →
      room.current_turn = (room.players.map (·._id)).getD i none →
      ∃ s' room', roll_round code seeds k s = some s' ∧
        findRoom s' code = some room' ∧ room'.players = room.players ∧
        room'.current_turn = (room.players.map (·._id)).getD
          ((i + k) % (room.players.map (·._id)).length) none := by
  intro k
  induction k with
  | zero =>
    intro s room i hU hfr hs hnd hall hi hcur
    refine ⟨s, room, rfl, hfr, rfl, ?_⟩
    rw [Nat.add_zero, Nat.mod_eq_of_lt hi]
    exact hcur
  | succ k ih =>
    intro s room i hU hfr hs hnd hall hi hcur
    have hnpos : 0 < (room.players.map (·._id)).length := by omega
    have hmem : (room.players.map (·._id)).getD i none ∈
        room.players.map (·._id) := by
      rw [List.getD_eq_getElem _ _ hi]
      exact List.getElem_mem hi
    rcases hpid : (room.players.map (·._id)).getD i none with _ | pid
    · exact absurd (hpid ▸ hmem) (fun hmem' => hall none hmem' rfl)
    · have hcur' : room.current_turn = some pid := by rw [hcur, hpid]
      have hstep := roll_step s code code pid (seeds k) room i hU hfr hs hnd hi
        hpid hcur'
      have hroom1 : findRoom (updateRoomById s room._id
          (patchLastRoll (randint 1 6 (seeds k)))) code =
          some (patchLastRoll (randint 1 6 (seeds k)) room) :=
        findRoom_updateRoomById _ hU hfr rfl
      have hU1 : UniqueIds (updateRoomById s room._id
          (patchLastRoll (randint 1 6 (seeds k)))) :=
        uniqueIds_updateRoomById room._id _ (fun r => rfl) hU
      have hfr2 : findRoom (updateRoomById (updateRoomById s room._id
          (patchLastRoll (randint 1 6 (seeds k)))) room._id
            (patchTurn (nextIdOf room i))) code =
          some (patchTurn (nextIdOf room i)
            (patchLastRoll (randint 1 6 (seeds k)) room)) :=
        findRoom_updateRoomById _ hU1 hroom1 rfl
      have hU2 : UniqueIds (updateRoomById (updateRoomById s room._id
          (patchLastRoll (randint 1 6 (seeds k)))) room._id
            (patchTurn (nextIdOf room i))) :=
        uniqueIds_updateRoomById room._id _ (fun r => rfl) hU1
      have hj : (i + 1) % (room.players.map (·._id)).length <
          (room.players.map (·._id)).length := Nat.mod_lt _ hnpos
      obtain ⟨s', room', hrr, hfr', hpl', hcurFin⟩ :=
        ih (updateRoomById (updateRoomById s room._id
            (patchLastRoll (randint 1 6 (seeds k)))) room._id
              (patchTurn (nextIdOf room i)))
          (patchTurn (nextIdOf room i)
            (patchLastRoll (randint 1 6 (seeds k)) room))
          ((i + 1) % (room.players.map (·._id)).length)
          hU2 hfr2 (by simpa using hs) (by simpa using hnd)
          (by simpa using hall) (by simpa using hj)
          (by simp [nextIdOf_eq_getD])
      refine ⟨s', room', ?_, hfr', by simpa using hpl', ?_⟩
      · simp only [roll_round, hfr, hcur', hstep]
        exact hrr
      · have hidxeq : ((i + 1) % (room.players.map (·._id)).length + k) %
            (room.players.map (·._id)).length =
            (i + (k + 1)) % (room.players.map (·._id)).length := by
          rw [Nat.mod_add_mod]
          congr 1
          omega
        rw [← hidxeq]
        simpa using hcurFin

theorem insertDesc_append (m : Message) (l : List Message)
    (h : ∀ y ∈ l, m.mid ≤ y.mid) : insertDesc m l = l ++ [m] := by
  induction l with
  | nil => rfl
  | cons x xs ih =>
    simp only [insertDesc]
    rw [if_pos (h x (by simp)), ih (fun y hy => h y (by simp [hy]))]
    rfl

theorem sortDesc_eq_reverse (l : List Message)
    (h : List.Pairwise (fun a b => a.mid < b.mid) l) :
    sortDesc l = l.reverse := by
  induction l with
  | nil => rfl
  | cons x xs ih =>
    rw [List.pairwise_cons] at h
    simp only [sortDesc]
    rw [ih h.2, insertDesc_append x xs.reverse
      (fun y hy => Nat.le_of_lt (h.1 y (by simpa using hy)))]
    simp

theorem post_chat_chron (s : Store) (msg : ChatPayload)
    (hchron : List.Pairwise (fun a b => a.mid < b.mid) s.messages)
    (hbound : ∀ m ∈ s.messages, m.mid < s.nextMid) :
    List.Pairwise (fun a b => a.mid < b.mid) (post_chat s msg).2.messages ∧
    ∀ m ∈ (post_chat s msg).2.messages, m.mid < (post_chat s msg).2.nextMid := by
  constructor
  · simp only [post_chat]
    rw [List.pairwise_append]
    refine ⟨hchron, by simp, ?_⟩
    intro a ha b hb
    simp only [List.mem_singleton] at hb
    subst hb
    exact hbound a ha
  · intro m hm
    simp only [post_chat, List.mem_append, List.mem_singleton] at hm
    rcases hm with hm | hm
    · exact Nat.lt_succ_of_lt (hbound m hm)
    · subst hm; exact Nat.lt_succ_self _

/-! ### Claims -/

/-- C10: `roll_dice` selects the room solely from the path parameter `code`
and ignores the `room_code` field of the request body: two invocations that
differ only in the body's `room_code` (same path code, same `player_id`, same
store, same random draw) return the same result and the same store. -/
theorem roll_dice_ignores_body_room_code (s : Store) (code pid rc1 rc2 : String)
    (seed : Nat) :
    roll_dice s code ⟨rc1, pid⟩ seed = roll_dice s code ⟨rc2, pid⟩ seed := rfl

/-- C7: a successful `roll_dice` returns a roll in `{1,…,6}`, and the returned
room — which is the one persisted in the resulting store — has `last_roll`
equal to that roll, whatever `last_roll` held before. -/
theorem roll_dice_success_range_persist (s : Store) (code : String)
    (payload : RollDiceRequest) (seed : Nat) (res : RollResult) (s' : Store)
    (h : roll_dice s code payload seed = (.ok res, s')) :
    (1 ≤ res.roll ∧ res.roll ≤ 6) ∧
      res.room.last_roll = some res.roll ∧
      findById s' res.room._id = some res.room := by
  simp only [roll_dice] at h
  split at h
  · simp at h
  next room hfr =>
    split at h
    · simp at h
    split at h
    · simp at h
    split at h
    · simp at h
    next idx hidx =>
      split at h
      next updated hupd =>
        simp only [Prod.mk.injEq, Except.ok.injEq] at h
        obtain ⟨hres, hs⟩ := h
        subst hres
        subst hs
        have hupd' := hupd
        rw [findById_update_patchTurn, findById_update_patchLastRoll] at hupd
        rcases hr0 : findById s room._id with _ | r0
        · rw [hr0] at hupd; simp at hupd
        · rw [hr0] at hupd
          simp only [Option.map_some', Option.some.injEq] at hupd
          have hid : updated._id = room._id := by
            rw [← hupd]; simpa using findById_id hr0
          subst hupd
          refine ⟨⟨?_, ?_⟩, ?_, ?_⟩
          · simp [randint]
          · have : seed % 6 < 6 := Nat.mod_lt _ (by omega)
            simp only [randint]
            omega
          · simp
          · have h2 : r0._id = room._id := by simpa using hid
            simpa [h2] using hupd'
      · simp at h

/-- Witness for C7: the first roll in the demo game (seed 7 draws a 2). -/
theorem roll_dice_success_range_persist_witness :
    (1 ≤ demoRollRes.roll ∧ demoRollRes.roll ≤ 6) ∧
      demoRollRes.room.last_roll = some demoRollRes.roll ∧
      findById demoRollOut.2 demoRollRes.room._id = some demoRollRes.room :=
  roll_dice_success_range_persist demoStore3 "ABC123" ⟨"ABC123", "oid1-p0"⟩ 7
    demoRollRes demoRollOut.2 (by rfl)

/-- C2: `start_game` on a waiting room fails with `notEnoughPlayers` when the
room has fewer than 2 players; with at least 2 players it sets the status to
"playing" and `current_turn` to the `_id` of the player at index 0 of the
player list (the first joiner, regardless of color), leaving the player list
unchanged.  `UniqueIds` is MongoDB's primary-key guarantee on `_id`. -/
theorem start_game_spec (s : Store) (code : String) (room : Room)
    (hU : UniqueIds s) (hfr : findRoom s code = some room)
    (hw : room.status = "waiting") :
    (room.players.length < 2 →
      start_game s code = (.error .notEnoughPlayers, s)) ∧
    (2 ≤ room.players.length →
      start_game s code =
        (.ok (patchStart (room.players.headD default)._id room),
          updateRoomById s room._id (patchStart (room.players.headD default)._id)) ∧
      (patchStart (room.players.headD default)._id room).status = "playing" ∧
      (patchStart (room.players.headD default)._id room).current_turn =
        (room.players.headD default)._id ∧
      (patchStart (room.players.headD default)._id room).players = room.players) := by
  constructor
  · intro hlt
    simp only [start_game, hfr]
    rw [if_neg (by simp [hw])]
    rw [if_pos hlt]
  · intro hge
    refine ⟨?_, by simp, by simp, by simp⟩
    simp only [start_game, hfr]
    rw [if_neg (by simp [hw]), if_neg (by omega)]
    rcases hp : room.players with _ | ⟨p0, rest⟩
    · rw [hp] at hge; simp at hge
    · have hbyid : findById (updateRoomById s room._id (patchStart p0._id)) room._id =
          some (patchStart p0._id room) := by
        rw [findById_update_patchStart, findById_of_findRoom hU hfr]
        rfl
      simp only [hbyid, hp, List.headD_cons]

/-- Witness for C2: starting the two-player demo room. -/
theorem start_game_spec_witness :
    (demoRoom2.players.length < 2 →
      start_game demoStore2 "ABC123" = (.error .notEnoughPlayers, demoStore2)) ∧
    (2 ≤ demoRoom2.players.length →
      start_game demoStore2 "ABC123" =
        (.ok (patchStart (demoRoom2.players.headD default)._id demoRoom2),
          updateRoomById demoStore2 demoRoom2._id
            (patchStart (demoRoom2.players.headD default)._id)) ∧
      (patchStart (demoRoom2.players.headD default)._id demoRoom2).status = "playing" ∧
      (patchStart (demoRoom2.players.headD default)._id demoRoom2).current_turn =
        (demoRoom2.players.headD default)._id ∧
      (patchStart (demoRoom2.players.headD default)._id demoRoom2).players =
        demoRoom2.players) :=
  start_game_spec demoStore2 "ABC123" demoRoom2 (by decide) (by rfl) (by rfl)

/-- C3: `join_room` fails with `roomNotFound` when no room has the given code,
with `gameAlreadyStarted` when the room's status is not "waiting", and with
`roomFull` when the player list already has `max_players` entries; otherwise
it appends exactly one new player, and the resulting list length stays within
`max_players`. -/
theorem join_room_error_handling (s : Store) (payload : JoinRoomRequest)
    (room : Room) (hU : UniqueIds s) :
    (findRoom s payload.room_code = none →
      join_room s payload = (.error .roomNotFound, s)) ∧
    (findRoom s payload.room_code = some room → room.status ≠ "waiting" →
      join_room s payload = (.error .gameAlreadyStarted, s)) ∧
    (findRoom s payload.room_code = some room → room.status = "waiting" →
      room.players.length = room.max_players →
      join_room s payload = (.error .roomFull, s)) ∧
    (findRoom s payload.room_code = some room → room.status = "waiting" →
      room.players.length < room.max_players →
      join_room s payload =
        (.ok (patchPlayers (room.players ++ [newPlayer room payload.player_name]) room),
          updateRoomById s room._id
            (patchPlayers (room.players ++ [newPlayer room payload.player_name]))) ∧
      (room.players ++ [newPlayer room payload.player_name]).length ≤ room.max_players) := by
  refine ⟨join_room_eq_notFound s payload,
    fun h hs => join_room_eq_started s payload room h hs,
    fun h hs he => join_room_eq_full s payload room h hs (le_of_eq he.symm),
    fun h hs hlt => ⟨join_room_eq_ok s payload room hU h hs hlt, by simp; omega⟩⟩

/-- Witness for C3: "bob" joins the fresh one-player demo room. -/
theorem join_room_error_handling_witness :
    (findRoom demoStore1 "ABC123" = none →
      join_room demoStore1 ⟨"bob", "ABC123"⟩ = (.error .roomNotFound, demoStore1)) ∧
    (findRoom demoStore1 "ABC123" = some demoRoom1 → demoRoom1.status ≠ "waiting" →
      join_room demoStore1 ⟨"bob", "ABC123"⟩ = (.error .gameAlreadyStarted, demoStore1)) ∧
    (findRoom demoStore1 "ABC123" = some demoRoom1 → demoRoom1.status = "waiting" →
      demoRoom1.players.length = demoRoom1.max_players →
      join_room demoStore1 ⟨"bob", "ABC123"⟩ = (.error .roomFull, demoStore1)) ∧
    (findRoom demoStore1 "ABC123" = some demoRoom1 → demoRoom1.status = "waiting" →
      demoRoom1.players.length < demoRoom1.max_players →
      join_room demoStore1 ⟨"bob", "ABC123"⟩ =
        (.ok (patchPlayers (demoRoom1.players ++ [newPlayer demoRoom1 "bob"]) demoRoom1),
          updateRoomById demoStore1 demoRoom1._id
            (patchPlayers (demoRoom1.players ++ [newPlayer demoRoom1 "bob"]))) ∧
      (demoRoom1.players ++ [newPlayer demoRoom1 "bob"]).length ≤ demoRoom1.max_players) :=
  join_room_error_handling demoStore1 ⟨"bob", "ABC123"⟩ demoRoom1 (by decide)

/-- C6: player ids follow the `<room-id>-p<index>` pattern in join order.  The
creator of a room ends up with id `<oid>-p0`; a player joining a room holding
`n` players is assigned id `<room-id>-p<n>`. -/
theorem player_id_pattern (s s2 : Store) (payload : CreateRoomRequest)
    (genCode oid : String) (jpayload : JoinRoomRequest) (room : Room)
    (hU : UniqueIds s2) :
    (findRoom s (chosenCode payload.room_code genCode) = none →
      oid ∉ s.rooms.map (·._id) →
      ∃ r, (create_room s payload genCode oid).1 = .ok r ∧
        r.players.map (·._id) = [some (oid ++ "-p0")]) ∧
    (findRoom s2 jpayload.room_code = some room → room.status = "waiting" →
      room.players.length < room.max_players →
      ∃ r, (join_room s2 jpayload).1 = .ok r ∧
        r.players = room.players ++ [newPlayer room jpayload.player_name] ∧
        (newPlayer room jpayload.player_name)._id =
          some (room._id ++ "-p" ++ toString room.players.length)) := by
  constructor
  · intro hnone hfresh
    refine ⟨_, by rw [create_room_eq_ok s payload genCode oid hnone hfresh], ?_⟩
    simp [patchP0Id, newRoom, setPlayerId0, hostPlayer]
  · intro h hs hlt
    refine ⟨_, by rw [join_room_eq_ok s2 jpayload room hU h hs hlt], by simp, rfl⟩

/-- Witness for C6: "alice" creates a room (id `oid1-p0`), then "bob" joins
the one-player room (id `oid1-p1`). -/
theorem player_id_pattern_witness :
    (findRoom demoStore0 (chosenCode none "ABC123") = none →
      "oid1" ∉ demoStore0.rooms.map (·._id) →
      ∃ r, (create_room demoStore0 ⟨"alice", none⟩ "ABC123" "oid1").1 = .ok r ∧
        r.players.map (·._id) = [some ("oid1" ++ "-p0")]) ∧
    (findRoom demoStore1 "ABC123" = some demoRoom1 → demoRoom1.status = "waiting" →
      demoRoom1.players.length < demoRoom1.max_players →
      ∃ r, (join_room demoStore1 ⟨"bob", "ABC123"⟩).1 = .ok r ∧
        r.players = demoRoom1.players ++ [newPlayer demoRoom1 "bob"] ∧
        (newPlayer demoRoom1 "bob")._id =
          some (demoRoom1._id ++ "-p" ++ toString demoRoom1.players.length)) :=
  player_id_pattern demoStore0 demoStore1 ⟨"alice", none⟩ "ABC123" "oid1"
    ⟨"bob", "ABC123"⟩ demoRoom1 (by decide)

/-- C4: whenever an operation fails with one of its declared errors (anything
but the HTTP-500 `internalError`, which is not part of the error taxonomy),
the resulting store is exactly the input store — no partial mutation is
observable; in particular, rolling with a `player_id` different from
`current_turn` fails with `notYourTurn` and leaves the store (hence both
`last_roll` and `current_turn`) unchanged. -/
theorem failed_ops_do_not_mutate (s : Store) (cp : CreateRoomRequest)
    (genCode oid : String) (jp : JoinRoomRequest) (code : String)
    (rp : RollDiceRequest) (seed : Nat) (room : Room) :
    (∀ e s', create_room s cp genCode oid = (.error e, s') →
      e ≠ .internalError → s' = s) ∧
    (∀ e s', join_room s jp = (.error e, s') →
      e ≠ .internalError → s' = s) ∧
    (∀ e s', start_game s code = (.error e, s') →
      e ≠ .internalError → s' = s) ∧
    (∀ e s', roll_dice s code rp seed = (.error e, s') →
      e ≠ .internalError → s' = s) ∧
    (findRoom s code = some room → room.status = "playing" →
      room.current_turn ≠ some rp.player_id →
      roll_dice s code rp seed = (.error .notYourTurn, s)) := by
  refine ⟨?_, ?_, ?_, ?_, ?_⟩
  · intro e s' h hne
    simp only [create_room] at h
    split at h
    · simp only [Prod.mk.injEq, Except.error.injEq] at h
      exact h.2.symm
    · split at h
      · simp at h
      · simp only [Prod.mk.injEq, Except.error.injEq] at h
        exact absurd h.1.symm hne
  · intro e s' h hne
    simp only [join_room] at h
    split at h
    · simp only [Prod.mk.injEq, Except.error.injEq] at h
      exact h.2.symm
    · split at h
      · simp only [Prod.mk.injEq, Except.error.injEq] at h
        exact h.2.symm
      · split at h
        · simp only [Prod.mk.injEq, Except.error.injEq] at h
          exact h.2.symm
        · split at h
          · simp at h
          · simp only [Prod.mk.injEq, Except.error.injEq] at h
            exact absurd h.1.symm hne
  · intro e s' h hne
    simp only [start_game] at h
    split at h
    · simp only [Prod.mk.injEq, Except.error.injEq] at h
      exact h.2.symm
    · split at h
      · simp only [Prod.mk.injEq, Except.error.injEq] at h
        exact h.2.symm
      · split at h
        · simp only [Prod.mk.injEq, Except.error.injEq] at h
          exact h.2.symm
        · split at h
          · simp only [Prod.mk.injEq, Except.error.injEq] at h
            exact h.2.symm
          · split at h
            · simp at h
            · simp only [Prod.mk.injEq, Except.error.injEq] at h
              exact absurd h.1.symm hne
  · intro e s' h hne
    simp only [roll_dice] at h
    split at h
    · simp only [Prod.mk.injEq, Except.error.injEq] at h
      exact h.2.symm
    · split at h
      · simp only [Prod.mk.injEq, Except.error.injEq] at h
        exact h.2.symm
      · split at h
        · simp only [Prod.mk.injEq, Except.error.injEq] at h
          exact h.2.symm
        · split at h
          · simp only [Prod.mk.injEq, Except.error.injEq] at h
            exact absurd h.1.symm hne
          · split at h
            · simp at h
            · simp only [Prod.mk.injEq, Except.error.injEq] at h
              exact absurd h.1.symm hne
  · intro hfr hs ht
    exact roll_dice_eq_notYourTurn s code rp seed room hfr hs ht

/-- Witness for C4: one declared failure of each endpoint against the demo
stores, plus the wrong-player roll. -/
theorem failed_ops_do_not_mutate_witness :
    demoStore1 = demoStore1 ∧ demoStore3 = demoStore3 ∧
    demoStore3 = demoStore3 ∧ demoStore1 = demoStore1 ∧
    roll_dice demoStore3 "ABC123" ⟨"ABC123", "oid1-p1"⟩ 3 =
      (.error .notYourTurn, demoStore3) := by
  have h1 := failed_ops_do_not_mutate demoStore1 ⟨"carol", some "ABC123"⟩
    "GEN999" "oid9" ⟨"dave", "ABC123"⟩ "ABC123" ⟨"ABC123", "oid1-p0"⟩ 0 demoRoom1
  have h3 := failed_ops_do_not_mutate demoStore3 ⟨"carol", some "ABC123"⟩
    "GEN999" "oid9" ⟨"dave", "ABC123"⟩ "ABC123" ⟨"ABC123", "oid1-p1"⟩ 3 demoRoom3
  exact ⟨h1.1 .roomCodeConflict demoStore1 (by rfl) (by decide),
    h3.2.1 .gameAlreadyStarted demoStore3 (by rfl) (by decide),
    h3.2.2.1 .alreadyStarted demoStore3 (by rfl) (by decide),
    h1.2.2.2.1 .gameNotStarted demoStore1 (by rfl) (by decide),
    h3.2.2.2.2 (by rfl) (by rfl) (by decide)⟩

/-- C8: status transitions are monotonic.  Rooms are created with status
"waiting"; `join_room` and `roll_dice` never change any stored status;
`start_game` either leaves a stored status unchanged or moves it from
"waiting" to "playing"; consequently no status moves backwards in rank and no
operation reaches "finished". -/
theorem status_transitions_monotonic (s : Store) (cp : CreateRoomRequest)
    (genCode oid : String) (jp : JoinRoomRequest) (code : String)
    (rp : RollDiceRequest) (seed : Nat)
    (hU : UniqueIds s) (hfresh : oid ∉ s.rooms.map (·._id)) :
    (∀ i, i < s.rooms.length →
      statusAt (create_room s cp genCode oid).2 i = statusAt s i) ∧
    (∀ r s', create_room s cp genCode oid = (.ok r, s') → r.status = "waiting") ∧
    (∀ i, statusAt (join_room s jp).2 i = statusAt s i) ∧
    (∀ i, statusAt (roll_dice s code rp seed).2 i = statusAt s i) ∧
    (∀ i, i < s.rooms.length →
      (statusAt (start_game s code).2 i = statusAt s i ∨
        (statusAt s i = "waiting" ∧
          statusAt (start_game s code).2 i = "playing"))) ∧
    (∀ i, i < s.rooms.length →
      statusRank (statusAt s i) ≤ statusRank (statusAt (start_game s code).2 i)) ∧
    (∀ i, i < s.rooms.length → statusAt s i ≠ "finished" →
      statusAt (start_game s code).2 i ≠ "finished") := by
  have hstart : ∀ i, i < s.rooms.length →
      (statusAt (start_game s code).2 i = statusAt s i ∨
        (statusAt s i = "waiting" ∧
          statusAt (start_game s code).2 i = "playing")) := by
    intro i hi
    rcases hfr : findRoom s code with _ | room
    · left; rw [start_game_eq_notFound s code hfr]
    · by_cases hw : room.status = "waiting"
      · by_cases hlen : room.players.length < 2
        · left; rw [start_game_eq_few s code room hfr hw hlen]
        · rw [start_game_eq_ok s code room hU hfr hw (by omega)]
          exact statusAt_patchStart s code room hU hfr hw _ i hi
      · left; rw [start_game_eq_started s code room hfr hw]
  refine ⟨?_, ?_, ?_, ?_, hstart, ?_, ?_⟩
  · intro i hi
    rcases hnone : findRoom s (chosenCode cp.room_code genCode) with _ | r0
    · rw [create_room_eq_ok s cp genCode oid hnone hfresh]
      show ((s.rooms ++
          [patchP0Id (oid ++ "-p0")
            (newRoom (chosenCode cp.room_code genCode) oid cp.player_name)]).getD
          i default).status = ((s.rooms.getD i default)).status
      rw [List.getD_eq_getElem?_getD, List.getD_eq_getElem?_getD,
        List.getElem?_append_left hi]
    · rw [create_room_eq_conflict s cp genCode oid r0 hnone]
  · intro r s' h
    rcases hnone : findRoom s (chosenCode cp.room_code genCode) with _ | r0
    · rw [create_room_eq_ok s cp genCode oid hnone hfresh] at h
      simp only [Prod.mk.injEq, Except.ok.injEq] at h
      rw [← h.1]; rfl
    · rw [create_room_eq_conflict s cp genCode oid r0 hnone] at h
      simp at h
  · intro i
    rcases hfr : findRoom s jp.room_code with _ | room
    · rw [join_room_eq_notFound s jp hfr]
    · by_cases hs : room.status = "waiting"
      · by_cases hlen : room.players.length ≥ room.max_players
        · rw [join_room_eq_full s jp room hfr hs hlen]
        · rw [join_room_eq_ok s jp room hU hfr hs (by omega)]
          exact statusAt_updateRoomById_preserve s room._id
            (patchPlayers (room.players ++ [newPlayer room jp.player_name]))
            (fun r => rfl) i
      · rw [join_room_eq_started s jp room hfr hs]
  · intro i
    rcases hfr : findRoom s code with _ | room
    · rw [roll_dice_eq_notFound s code rp seed hfr]
    · by_cases hs : room.status = "playing"
      · by_cases ht : room.current_turn = some rp.player_id
        · rcases hidx : (room.players.map (·._id)).findIdx?
              (fun x => x = some rp.player_id) with _ | idx
          · rw [roll_dice_eq_idxNone s code rp seed room hfr hs ht hidx]
            exact statusAt_updateRoomById_preserve s room._id
              (patchLastRoll (randint 1 6 seed)) (fun r => rfl) i
          · rw [roll_dice_eq_ok s code rp seed room idx hU hfr hs ht hidx]
            rw [statusAt_updateRoomById_preserve
                (updateRoomById s room._id (patchLastRoll (randint 1 6 seed)))
                room._id (patchTurn (nextIdOf room idx)) (fun r => rfl) i]
            exact statusAt_updateRoomById_preserve s room._id
              (patchLastRoll (randint 1 6 seed)) (fun r => rfl) i
        · rw [roll_dice_eq_notYourTurn s code rp seed room hfr hs ht]
      · rw [roll_dice_eq_notStarted s code rp seed room hfr hs]
  · intro i hi
    rcases hstart i hi with h | ⟨hw, hp⟩
    · rw [h]
    · rw [hw, hp]
      decide
  · intro i hi hnf
    rcases hstart i hi with h | ⟨hw, hp⟩
    · rw [h]; exact hnf
    · rw [hp]; decide

/-- Witness for C8: joining and starting the two-player demo room touch the
stored status only as the claim allows. -/
theorem status_transitions_monotonic_witness :
    statusAt (join_room demoStore2 ⟨"carol", "ABC123"⟩).2 0 = statusAt demoStore2 0 ∧
    (statusAt (start_game demoStore2 "ABC123").2 0 = statusAt demoStore2 0 ∨
      (statusAt demoStore2 0 = "waiting" ∧
        statusAt (start_game demoStore2 "ABC123").2 0 = "playing")) :=
  ⟨(status_transitions_monotonic demoStore2 ⟨"carol", some "ZZZ999"⟩ "GEN999" "oid7"
      ⟨"carol", "ABC123"⟩ "ABC123" ⟨"ABC123", "x"⟩ 0 (by decide) (by decide)).2.2.1 0,
    (status_transitions_monotonic demoStore2 ⟨"carol", some "ZZZ999"⟩ "GEN999" "oid7"
      ⟨"carol", "ABC123"⟩ "ABC123" ⟨"ABC123", "x"⟩ 0 (by decide) (by decide)).2.2.2.2.1 0
      (by decide)⟩

/-- C5: the color assigned to a joining player is the lowest-indexed palette
color not already present among the used colors; when all four are used the
fallback is `COLORS[len(players) % 4]`.  Consequently, colors are pairwise
distinct in any room built from a create followed by sequential joins (the
join sequence caps the room at 4 players). -/
theorem color_assignment_spec (players : List Player) (s : Store)
    (cp : CreateRoomRequest) (genCode oid : String) (names : List String)
    (i : Nat)
    (hU : UniqueIds s) (hfresh : oid ∉ s.rooms.map (·._id))
    (hnone : findRoom s (chosenCode cp.room_code genCode) = none)
    (_hnames : names.length ≤ 3) :
    (i < COLORS.length →
      (∀ j, j < i → COLORS.getD j "" ∈ players.map (·.color)) →
      COLORS.getD i "" ∉ players.map (·.color) →
      next_color players = COLORS.getD i "") ∧
    ((∀ c ∈ COLORS, c ∈ players.map (·.color)) →
      next_color players = COLORS.getD (players.length % 4) "") ∧
    (∀ room, findRoom (joinSeq (chosenCode cp.room_code genCode) names
        (create_room s cp genCode oid).2) (chosenCode cp.room_code genCode) =
        some room →
      (room.players.map (·.color)).Nodup) :=
  ⟨fun hi hprev hcur => next_color_lowest players i hi hprev hcur,
    next_color_fallback players,
    fun room hroom =>
      ((joinSeq_preserves_colorsInv _ names _
        (create_room_colorsInv s cp genCode oid hU hfresh hnone)).2 room hroom).1⟩

/-- Witness for C5: in the two-player demo room (red, green used) the next
color is the palette's index-2 color (yellow), and after two further joins
the four colors are pairwise distinct. -/
theorem color_assignment_spec_witness :
    next_color demoRoom2.players = COLORS.getD 2 "" ∧
    (demoRoomJ.players.map (·.color)).Nodup := by
  have h := color_assignment_spec demoRoom2.players demoStore0 ⟨"alice", none⟩
    "ABC123" "oid1" ["bob", "carol"] 2 (by decide) (by decide) (by rfl) (by decide)
  refine ⟨h.1 (by decide) ?_ (by decide), h.2.2 demoRoomJ (by rfl)⟩
  intro j hj
  interval_cases j <;> decide

/-- C1: in a playing room whose `current_turn` is the id of the player at
index `i` (room ids unique, player ids distinct), a successful `roll_dice` by
that player sets the persisted `current_turn` to the id of the player at
index `(i + 1) mod player_count`; and, starting from the first player,
`player_count` successful rolls with correct turn-passing return
`current_turn` to the first player's id. -/
theorem turn_rotation (s : Store) (code rc pid : String) (seed : Nat)
    (seeds : Nat → Nat) (room : Room) (i : Nat)
    (hU : UniqueIds s) (hfr : findRoom s code = some room)
    (hs : room.status = "playing")
    (hnd : (room.players.map (·._id)).Nodup)
    (hi : i < (room.players.map (·._id)).length)
    (hget : (room.players.map (·._id)).getD i none = some pid)
    (hcur : room.current_turn = some pid) :
    (roll_dice s code ⟨rc, pid⟩ seed =
      (.ok ⟨randint 1 6 seed,
        patchTurn (nextIdOf room i) (patchLastRoll (randint 1 6 seed) room)⟩,
       updateRoomById (updateRoomById s room._id (patchLastRoll (randint 1 6 seed)))
         room._id (patchTurn (nextIdOf room i))) ∧
     nextIdOf room i = (room.players.map (·._id)).getD
       ((i + 1) % (room.players.map (·._id)).length) none) ∧
    ((∀ x ∈ room.players.map (·._id), x ≠ none) → i = 0 →
      (roll_round code seeds room.players.length s).isSome = true ∧
      (∀ s' room', roll_round code seeds room.players.length s = some s' →
        findRoom s' code = some room' →
        room'.players = room.players ∧
        room'.current_turn = room.current_turn)) := by
  refine ⟨⟨roll_step s code rc pid seed room i hU hfr hs hnd hi hget hcur, rfl⟩, ?_⟩
  intro hall hi0
  subst hi0
  obtain ⟨s'', room'', hrr, hfr'', hpl'', hcur''⟩ :=
    roll_round_rotation code seeds room.players.length s room 0
      hU hfr hs hnd hall hi (by rw [hcur, hget])
  have hback : room''.current_turn = room.current_turn := by
    rw [hcur'', hcur]
    rw [show (0 + room.players.length) % (room.players.map (·._id)).length = 0 by
      simp [List.length_map]]
    exact hget
  refine ⟨?_, ?_⟩
  · rw [hrr]; rfl
  · intro s' room' h1 h2
    rw [hrr, Option.some.injEq] at h1
    subst h1
    rw [hfr'', Option.some.injEq] at h2
    subst h2
    exact ⟨hpl'', hback⟩

/-- Witness for C1: the demo game (two players) — one roll passes the turn to
the second player, and a full round of two rolls returns it to the first. -/
theorem turn_rotation_witness :
    (roll_dice demoStore3 "ABC123" ⟨"x", "oid1-p0"⟩ 7 =
      (.ok ⟨randint 1 6 7,
        patchTurn (nextIdOf demoRoom3 0) (patchLastRoll (randint 1 6 7) demoRoom3)⟩,
       updateRoomById (updateRoomById demoStore3 demoRoom3._id
         (patchLastRoll (randint 1 6 7))) demoRoom3._id
         (patchTurn (nextIdOf demoRoom3 0)))) ∧
    (roll_round "ABC123" demoSeeds demoRoom3.players.length demoStore3).isSome = true ∧
    demoRoundRoom.players = demoRoom3.players ∧
    demoRoundRoom.current_turn = demoRoom3.current_turn := by
  have h := turn_rotation demoStore3 "ABC123" "x" "oid1-p0" 7 demoSeeds demoRoom3 0
    (by decide) (by rfl) (by rfl) (by decide) (by decide) (by rfl) (by rfl)
  have h2 := h.2 (by decide) rfl
  have h3 := h2.2 demoRoundStore demoRoundRoom (by rfl) (by rfl)
  exact ⟨h.1.1, h2.1, h3.1, h3.2⟩

/-- C9: when the stored messages are in chronological order (strictly
increasing ObjectIds, as produced by `post_chat`), chat retrieval returns the
suffix of the room's chronological message list holding its up-to-50 most
recent messages — so at most 50 messages, oldest first, and exactly the 50
most recent when more exist. -/
theorem get_chat_spec (s : Store) (rc : String)
    (hchron : List.Pairwise (fun a b => a.mid < b.mid) s.messages) :
    get_chat s rc = (msgsFor s rc).drop ((msgsFor s rc).length - 50) ∧
    (get_chat s rc).length ≤ 50 ∧
    List.Pairwise (fun a b => a.mid < b.mid) (get_chat s rc) := by
  have hpf : List.Pairwise (fun a b => a.mid < b.mid)
      (s.messages.filter (fun m => m.room_code = rc)) :=
    List.Pairwise.sublist (List.filter_sublist _) hchron
  have hmain : get_chat s rc = (msgsFor s rc).drop ((msgsFor s rc).length - 50) := by
    show ((sortDesc (s.messages.filter (fun m => m.room_code = rc))).take 50).reverse = _
    rw [sortDesc_eq_reverse _ hpf, List.take_reverse, List.reverse_reverse]
    rfl
  refine ⟨hmain, ?_, ?_⟩
  · rw [hmain, List.length_drop]
    omega
  · rw [hmain]
    exact List.Pairwise.sublist (List.drop_sublist _ _)
      (List.Pairwise.sublist (List.filter_sublist _) hchron)

/-- Witness for C9: retrieval after two posted messages returns both, oldest
first. -/
theorem get_chat_spec_witness :
    get_chat demoChatStore "ABC123" =
      (msgsFor demoChatStore "ABC123").drop
        ((msgsFor demoChatStore "ABC123").length - 50) ∧
    (get_chat demoChatStore "ABC123").length ≤ 50 ∧
    List.Pairwise (fun a b => a.mid < b.mid) (get_chat demoChatStore "ABC123") :=
  get_chat_spec demoChatStore "ABC123" (by decide)

end Ludo
